import Mathlib

/-!
Verification of the Divot.ai handicap engine.

Shallow embedding of the index/trend computations from
`js/utils/helpers.js` (class `GolfHelpers`), the constants module
(`HANDICAP_RULES`), and the legacy monolithic controller
(`script.js`, class `GolfTracker`).

JavaScript numbers are modelled as rationals (`ℚ`).  `Math.round` is
modelled as Mathlib's `round`, which agrees with JavaScript semantics:
both are `⌊x + 1/2⌋` (half-values round toward `+∞`, e.g.
`Math.round(-0.5) = -0`).  The array sort `.sort((a, b) => a - b)`
(ascending numeric sort) is modelled as `List.insertionSort (· ≤ ·)`,
and `.reduce((sum, d) => sum + d, 0)` as `List.foldl (· + ·) 0`.
`Array.prototype.slice` with negative arguments is translated to
`List.drop`/`List.take` with truncated subtraction, which matches the
JavaScript clamping of negative effective indices to `0`.
-/

namespace Divot

/-- A played round.  Only the `differential` field is read by the
computations verified here; the source's remaining `Round` fields
(id, date, courseName, courseRating, slopeRating, totalScore, par,
weather, notes) never influence the index or trend calculations. -/
structure Round where
  differential : ℚ
deriving DecidableEq

/-- One entry of the `HANDICAP_RULES` table from the constants module:
`{ rounds: n, count: k }`. -/
structure HandicapRule where
  rounds : Nat
  count : Nat
deriving DecidableEq

/-- The `HANDICAP_RULES` object from the constants module, as a partial
map: keys `1`–`20` are present, any other key access yields `none`
(JavaScript would yield `undefined`). -/
def HANDICAP_RULES (n : Nat) : Option HandicapRule :=
  match n with
  | 1 => some ⟨1, 1⟩
  | 2 => some ⟨2, 1⟩
  | 3 => some ⟨3, 1⟩
  | 4 => some ⟨4, 1⟩
  | 5 => some ⟨5, 1⟩
  | 6 => some ⟨6, 2⟩
  | 7 => some ⟨7, 2⟩
  | 8 => some ⟨8, 2⟩
  | 9 => some ⟨9, 3⟩
  | 10 => some ⟨10, 3⟩
  | 11 => some ⟨11, 4⟩
  | 12 => some ⟨12, 4⟩
  | 13 => some ⟨13, 5⟩
  | 14 => some ⟨14, 5⟩
  | 15 => some ⟨15, 6⟩
  | 16 => some ⟨16, 6⟩
  | 17 => some ⟨17, 7⟩
  | 18 => some ⟨18, 7⟩
  | 19 => some ⟨19, 8⟩
  | 20 => some ⟨20, 9⟩
  | _ => none

namespace GolfHelpers

/-- `GolfHelpers.calculateDifferential` from `js/utils/helpers.js`:
`((score - courseRating) * 113) / slopeRating`. -/
def calculateDifferential (score courseRating slopeRating : ℚ) : ℚ :=
  (score - courseRating) * 113 / slopeRating

/-- `GolfHelpers.calculateHandicap` from `js/utils/helpers.js`.
Returns `none` for the JavaScript `null` sentinel.  The `none` branch of
the rule lookup corresponds to a JavaScript `TypeError` on
`rule.count`; it is unreachable because the lookup key `min length 20`
lies in `3`–`20` whenever the length guard passes. -/
def calculateHandicap (rounds : List Round) : Option ℚ :=
  if rounds.length < 3 then none
  else
    let differentials := List.insertionSort (· ≤ ·) (rounds.map Round.differential)
    match HANDICAP_RULES (min rounds.length 20) with
    | none => none
    | some rule =>
      let roundsToCount := rule.count
      let bestDifferentials := differentials.take roundsToCount
      let average := bestDifferentials.foldl (· + ·) 0 / (bestDifferentials.length : ℚ)
      some (((round (average * 10) : ℤ) : ℚ) / 10)

/-- `GolfHelpers.calculateAverage` from `js/utils/helpers.js`.  The
source's `decimals` parameter defaults to `1`; every call site verified
here uses that default, passed explicitly below. -/
def calculateAverage (numbers : List ℚ) (decimals : Nat) : ℚ :=
  if numbers.length = 0 then 0
  else
    let sum := numbers.foldl (· + ·) 0
    ((round (sum / (numbers.length : ℚ) * 10 ^ decimals) : ℤ) : ℚ) / 10 ^ decimals

/-- `GolfHelpers.getHandicapTrend` from `js/utils/helpers.js`.
`slice(-3)` becomes `drop (n - 3)` and `slice(-6, -3)` becomes
`(take (n - 3)).drop (n - 6)` (elements at indices `[max(n-6,0), max(n-3,0))`),
with `n` the length and `-` truncated subtraction. -/
def getHandicapTrend (handicapHistory : List ℚ) : String :=
  if handicapHistory.length < 2 then "stable"
  else
    let n := handicapHistory.length
    let recent := handicapHistory.drop (n - 3)
    let older := (handicapHistory.take (n - 3)).drop (n - 6)
    if older.length = 0 then "stable"
    else
      let recentAvg := calculateAverage recent 1
      let olderAvg := calculateAverage older 1
      let difference := recentAvg - olderAvg
      if difference < -0.5 then "improving"
      else if difference > 0.5 then "declining"
      else "stable"

end GolfHelpers

namespace GolfTracker

/-- `GolfTracker.calculateHandicapForRounds` from the legacy monolithic
controller `script.js`: the same computation as the shared helper but
with the best-count chosen by an if/else ladder instead of the
`HANDICAP_RULES` table. -/
def calculateHandicapForRounds (rounds : List Round) : Option ℚ :=
  if rounds.length < 3 then none
  else
    let differentials := List.insertionSort (· ≤ ·) (rounds.map Round.differential)
    let roundsToCount : Nat :=
      if rounds.length ≤ 5 then 1
      else if rounds.length ≤ 8 then 2
      else if rounds.length ≤ 10 then 3
      else if rounds.length ≤ 12 then 4
      else if rounds.length ≤ 14 then 5
      else if rounds.length ≤ 16 then 6
      else if rounds.length ≤ 18 then 7
      else if rounds.length ≤ 19 then 8
      else 9
    let bestDifferentials := differentials.take roundsToCount
    let average := bestDifferentials.foldl (· + ·) 0 / (bestDifferentials.length : ℚ)
    some (((round (average * 10) : ℤ) : ℚ) / 10)

end GolfTracker

/-- The spec's step function for "how many of the best differentials to
average", written from the claim's table: `n` in 1–5 → 1, 6–8 → 2,
9–10 → 3, 11–12 → 4, 13–14 → 5, 15–16 → 6, 17–18 → 7, 19 → 8,
`n ≥ 20` → 9. -/
def bestCountSpec (n : Nat) : Nat :=
  if n ≤ 5 then 1
  else if n ≤ 8 then 2
  else if n ≤ 10 then 3
  else if n ≤ 12 then 4
  else if n ≤ 14 then 5
  else if n ≤ 16 then 6
  else if n ≤ 18 then 7
  else if n = 19 then 8
  else 9

/-- The spec's rounding rule for claim C2, written from its words:
"round to the nearest integer with ties rounded away from zero". -/
def roundHalfAwayFromZero (q : ℚ) : ℤ :=
  if q < 0 then -⌊-q + 1 / 2⌋ else ⌊q + 1 / 2⌋

/-- The spec's one-decimal rounding for claim C2: "multiply the mean by
10, round to the nearest integer with ties rounded away from zero, then
divide by 10". -/
def specRound1 (q : ℚ) : ℚ :=
  (roundHalfAwayFromZero (q * 10) : ℚ) / 10

end Divot

namespace Divot

/-! ### Shared helper lemmas -/

/-- `round` is monotone on `ℚ`. -/
theorem round_mono_rat {x y : ℚ} (h : x ≤ y) : round x ≤ round y := by
  rw [round_eq, round_eq]
  exact Int.floor_mono (by linarith)

/-- Sorting is invariant under permutation of the input. -/
theorem sort_eq_of_perm {l l' : List ℚ} (h : l.Perm l') :
    List.insertionSort (· ≤ ·) l = List.insertionSort (· ≤ ·) l' :=
  List.eq_of_perm_of_sorted
    ((List.perm_insertionSort _ l).trans (h.trans (List.perm_insertionSort _ l').symm))
    (List.sorted_insertionSort _ l) (List.sorted_insertionSort _ l')

theorem bestCountSpec_pos (n : Nat) : 1 ≤ bestCountSpec n := by
  unfold bestCountSpec
  split_ifs <;> omega

theorem bestCountSpec_le (n : Nat) (h : 3 ≤ n) : bestCountSpec n ≤ n := by
  unfold bestCountSpec
  split_ifs <;> omega

/-- For `n ≥ 3` the table lookup `HANDICAP_RULES[min n 20]` succeeds and its
`count` field agrees with the spec's step function. -/
theorem HANDICAP_RULES_lookup (n : Nat) (h : 3 ≤ n) :
    HANDICAP_RULES (min n 20) = some ⟨min n 20, bestCountSpec n⟩ := by
  rcases le_or_lt n 20 with h20 | h20
  · rw [min_eq_left h20]
    interval_cases n <;> rfl
  · rw [min_eq_right (by omega)]
    have h9 : bestCountSpec n = 9 := by
      unfold bestCountSpec
      repeat rw [if_neg (by omega)]
    rw [h9]
    rfl

/-- The legacy controller's if/else ladder computes the spec's step function. -/
theorem ladder_eq_bestCountSpec (n : Nat) :
    (if n ≤ 5 then 1
     else if n ≤ 8 then 2
     else if n ≤ 10 then 3
     else if n ≤ 12 then 4
     else if n ≤ 14 then 5
     else if n ≤ 16 then 6
     else if n ≤ 18 then 7
     else if n ≤ 19 then 8
     else 9) = bestCountSpec n := by
  unfold bestCountSpec
  split_ifs <;> omega

theorem calculateHandicap_none (rounds : List Round) (h : rounds.length < 3) :
    GolfHelpers.calculateHandicap rounds = none := by
  unfold GolfHelpers.calculateHandicap
  rw [if_pos h]

theorem calculateHandicapForRounds_none (rounds : List Round) (h : rounds.length < 3) :
    GolfTracker.calculateHandicapForRounds rounds = none := by
  unfold GolfTracker.calculateHandicapForRounds
  rw [if_pos h]

/-- Closed form of the shared helper's index computation for `≥ 3` rounds:
round-half-up applied to the mean of the `bestCountSpec` smallest
differentials. -/
theorem calculateHandicap_eq (rounds : List Round) (h : 3 ≤ rounds.length) :
    GolfHelpers.calculateHandicap rounds =
      some (((round ((((List.insertionSort (· ≤ ·) (rounds.map Round.differential)).take
          (bestCountSpec rounds.length)).sum /
          (bestCountSpec rounds.length : ℚ)) * 10) : ℤ) : ℚ) / 10) := by
  have hlen : ((List.insertionSort (· ≤ ·) (rounds.map Round.differential)).take
      (bestCountSpec rounds.length)).length = bestCountSpec rounds.length := by
    rw [List.length_take, List.length_insertionSort, List.length_map]
    exact min_eq_left (bestCountSpec_le _ h)
  simp only [GolfHelpers.calculateHandicap, if_neg (show ¬rounds.length < 3 by omega),
    HANDICAP_RULES_lookup rounds.length h]
  rw [hlen, List.sum_eq_foldl]

/-- Closed form of the legacy controller's index computation for `≥ 3`
rounds; identical shape to `calculateHandicap_eq`. -/
theorem calculateHandicapForRounds_eq (rounds : List Round) (h : 3 ≤ rounds.length) :
    GolfTracker.calculateHandicapForRounds rounds =
      some (((round ((((List.insertionSort (· ≤ ·) (rounds.map Round.differential)).take
          (bestCountSpec rounds.length)).sum /
          (bestCountSpec rounds.length : ℚ)) * 10) : ℤ) : ℚ) / 10) := by
  have hlen : ((List.insertionSort (· ≤ ·) (rounds.map Round.differential)).take
      (bestCountSpec rounds.length)).length = bestCountSpec rounds.length := by
    rw [List.length_take, List.length_insertionSort, List.length_map]
    exact min_eq_left (bestCountSpec_le _ h)
  simp only [GolfTracker.calculateHandicapForRounds, if_neg (show ¬rounds.length < 3 by omega),
    ladder_eq_bestCountSpec rounds.length]
  rw [hlen, List.sum_eq_foldl]

/-! ### Claims -/

/-- Claim C5: for every collection of fewer than 3 rounds,
`GolfHelpers.calculateHandicap` returns the `null` sentinel (`none`),
regardless of the rounds' differential values.  The threshold 3 is a
literal in the guard and not a parameter of the function. -/
theorem claim5_insufficient_rounds (rounds : List Round) (h : rounds.length < 3) :
    GolfHelpers.calculateHandicap rounds = none :=
  calculateHandicap_none rounds h

theorem claim5_witness : GolfHelpers.calculateHandicap [⟨5⟩, ⟨-3⟩] = none :=
  claim5_insufficient_rounds [⟨5⟩, ⟨-3⟩] (by decide)

/-- Claim C6: for every `totalScore`, `courseRating` and non-zero
`slopeRating`, `GolfHelpers.calculateDifferential` returns exactly
`(totalScore - courseRating) * 113 / slopeRating`, unrounded and
unclamped; negative results are returned as-is. -/
theorem claim6_differential_formula (score courseRating slopeRating : ℚ)
    (h : slopeRating ≠ 0) :
    GolfHelpers.calculateDifferential score courseRating slopeRating =
      (score - courseRating) * 113 / slopeRating :=
  rfl

theorem claim6_witness :
    (113 : ℚ) ≠ 0 ∧
    GolfHelpers.calculateDifferential 70 72 113 = (70 - 72) * 113 / 113 :=
  ⟨by norm_num, claim6_differential_formula 70 72 113 (by norm_num)⟩

/-- Claim C7: `GolfHelpers.calculateHandicap` is invariant under
permutation of the input round collection. -/
theorem claim7_perm_invariant (r₁ r₂ : List Round) (h : r₁.Perm r₂) :
    GolfHelpers.calculateHandicap r₁ = GolfHelpers.calculateHandicap r₂ := by
  rcases lt_or_le r₁.length 3 with hlt | hge
  · rw [calculateHandicap_none _ hlt, calculateHandicap_none _ (h.length_eq ▸ hlt)]
  · rw [calculateHandicap_eq _ hge, calculateHandicap_eq _ (h.length_eq ▸ hge),
      h.length_eq, sort_eq_of_perm (h.map Round.differential)]

theorem claim7_witness :
    GolfHelpers.calculateHandicap [⟨2⟩, ⟨1⟩, ⟨3⟩] = GolfHelpers.calculateHandicap [⟨1⟩, ⟨2⟩, ⟨3⟩] :=
  claim7_perm_invariant [⟨2⟩, ⟨1⟩, ⟨3⟩] [⟨1⟩, ⟨2⟩, ⟨3⟩]
    (List.Perm.swap (⟨1⟩ : Round) ⟨2⟩ [⟨3⟩])

/-- Claim C8: the shared helper `GolfHelpers.calculateHandicap`
(table-driven via `HANDICAP_RULES`) and the legacy controller's
`GolfTracker.calculateHandicapForRounds` (if/else ladder) are
extensionally equal. -/
theorem claim8_implementations_agree (rounds : List Round) :
    GolfHelpers.calculateHandicap rounds = GolfTracker.calculateHandicapForRounds rounds := by
  rcases lt_or_le rounds.length 3 with hlt | hge
  · rw [calculateHandicap_none _ hlt, calculateHandicapForRounds_none _ hlt]
  · rw [calculateHandicap_eq _ hge, calculateHandicapForRounds_eq _ hge]

/-- Claim C1: for `n ≥ 3` rounds the helper sorts the differentials
ascending (the sorted list is ordered and a permutation of the input
differentials) and averages exactly the `k` smallest, where `k` is the
spec's step function of `n` (`bestCountSpec`); `bestCountSpec` returns 9
for every `n ≥ 20`, so counts beyond 20 behave exactly like 20. -/
theorem claim1_best_count_step_function (rounds : List Round) (h : 3 ≤ rounds.length) :
    List.Sorted (· ≤ ·) (List.insertionSort (· ≤ ·) (rounds.map Round.differential)) ∧
    (List.insertionSort (· ≤ ·) (rounds.map Round.differential)).Perm
      (rounds.map Round.differential) ∧
    GolfHelpers.calculateHandicap rounds =
      some (((round ((((List.insertionSort (· ≤ ·) (rounds.map Round.differential)).take
          (bestCountSpec rounds.length)).sum /
          (bestCountSpec rounds.length : ℚ)) * 10) : ℤ) : ℚ) / 10) :=
  ⟨List.sorted_insertionSort _ _, List.perm_insertionSort _ _, calculateHandicap_eq rounds h⟩

theorem claim1_witness :
    GolfHelpers.calculateHandicap [⟨10⟩, ⟨12⟩, ⟨8⟩, ⟨15⟩, ⟨20⟩] = some 8 := by
  rw [(claim1_best_count_step_function [⟨10⟩, ⟨12⟩, ⟨8⟩, ⟨15⟩, ⟨20⟩] (by decide)).2.2]
  norm_num [List.insertionSort, List.orderedInsert, bestCountSpec, round_eq, Rat.floor_def]

/-- Claim C2 counterexample: with three rounds of differential `-1/20`
the selected best differentials are `[-1/20]`, whose mean is `-1/20`.
The code returns `0` (because `Math.round(-0.5) = -0`), while the
claim's round-half-away-from-zero rule (`specRound1`) demands `-1/10`. -/
theorem claim2_counterexample :
    GolfHelpers.calculateHandicap [⟨-1/20⟩, ⟨-1/20⟩, ⟨-1/20⟩] = some 0 ∧
    specRound1 (-1/20) = -1/10 ∧ (0 : ℚ) ≠ -1/10 := by
  refine ⟨?_, ?_, by norm_num⟩
  · norm_num [GolfHelpers.calculateHandicap, HANDICAP_RULES, List.insertionSort,
      List.orderedInsert, round_eq, Rat.floor_def]
  · norm_num [specRound1, roundHalfAwayFromZero, Rat.floor_def]

/-- Claim C2 (amended): for `≥ 3` rounds the returned value is the mean
of the selected best differentials rounded to one decimal place by
multiplying by 10, taking `⌊x + 1/2⌋` (round-half-up: ties round toward
`+∞`, not away from zero), and dividing by 10.  For negative means a
tie therefore rounds toward zero, e.g. a mean of `-1/20` yields `0`
rather than `-1/10`. -/
theorem claim2_round_half_up (rounds : List Round) (h : 3 ≤ rounds.length) :
    GolfHelpers.calculateHandicap rounds =
      some (((⌊(((List.insertionSort (· ≤ ·) (rounds.map Round.differential)).take
          (bestCountSpec rounds.length)).sum /
          (bestCountSpec rounds.length : ℚ)) * 10 + 1 / 2⌋ : ℤ) : ℚ) / 10) := by
  rw [calculateHandicap_eq rounds h, round_eq]

theorem claim2_witness :
    GolfHelpers.calculateHandicap [⟨-1/20⟩, ⟨-1/20⟩, ⟨-1/20⟩] =
      some (((⌊((-1 : ℚ)/20) * 10 + 1 / 2⌋ : ℤ) : ℚ) / 10) := by
  rw [claim2_round_half_up [⟨-1/20⟩, ⟨-1/20⟩, ⟨-1/20⟩] (by decide)]
  norm_num [List.insertionSort, List.orderedInsert, bestCountSpec, Rat.floor_def]

/-- Claim C3 counterexample: the sequence `[10, 0, 0, 0]` has fewer than
6 values, yet the trend is `"improving"`, not `"stable"`: for length 4
the `slice(-6, -3)` window is `[10]`, not empty. -/
theorem claim3_counterexample :
    ([10, 0, 0, 0] : List ℚ).length < 6 ∧
    GolfHelpers.getHandicapTrend [10, 0, 0, 0] ≠ "stable" := by
  refine ⟨by decide, ?_⟩
  have h : GolfHelpers.getHandicapTrend [10, 0, 0, 0] = "improving" := by
    norm_num [GolfHelpers.getHandicapTrend, GolfHelpers.calculateAverage, round_eq, Rat.floor_def]
  rw [h]
  decide

/-- Claim C3 (amended): for every index sequence of fewer than 4 values,
`GolfHelpers.getHandicapTrend` returns `"stable"` regardless of the
values (for 4 or 5 values the older window is nonempty — it holds the
first `length - 3` values — and the result can differ from
`"stable"`). -/
theorem claim3_short_is_stable (l : List ℚ) (h : l.length < 4) :
    GolfHelpers.getHandicapTrend l = "stable" := by
  unfold GolfHelpers.getHandicapTrend
  rcases lt_or_le l.length 2 with h2 | h2
  · rw [if_pos h2]
  · rw [if_neg (by omega)]
    have h3 : l.length - 3 = 0 := by omega
    simp [h3]

theorem claim3_witness : GolfHelpers.getHandicapTrend [100, -100, 0] = "stable" :=
  claim3_short_is_stable [100, -100, 0] (by decide)

/-- The shared averaging helper on a window of exactly three values:
round-half-up of `(sum / 3) * 10`, divided by `10`. -/
theorem calculateAverage_three (w : List ℚ) (hw : w.length = 3) :
    GolfHelpers.calculateAverage w 1 = ((round ((w.sum / 3) * 10) : ℤ) : ℚ) / 10 := by
  simp only [GolfHelpers.calculateAverage, hw]
  norm_num [← List.sum_eq_foldl]

/-- Closed form of the trend computation for sequences of length `≥ 6`:
recent window is the last 3 values, older window the 3 values before
those, each averaged with round-half-up to one decimal. -/
theorem trend_eval (l : List ℚ) (h : 6 ≤ l.length) :
    GolfHelpers.getHandicapTrend l =
      if ((round (((l.drop (l.length - 3)).sum / 3) * 10) : ℤ) : ℚ) / 10 -
          ((round ((((l.drop (l.length - 6)).take 3).sum / 3) * 10) : ℤ) : ℚ) / 10 < -0.5
      then "improving"
      else if ((round (((l.drop (l.length - 3)).sum / 3) * 10) : ℤ) : ℚ) / 10 -
          ((round ((((l.drop (l.length - 6)).take 3).sum / 3) * 10) : ℤ) : ℚ) / 10 > 0.5
      then "declining"
      else "stable" := by
  have hrec : (l.drop (l.length - 3)).length = 3 := by
    rw [List.length_drop]
    omega
  have hold0 : (l.take (l.length - 3)).drop (l.length - 6) = (l.drop (l.length - 6)).take 3 := by
    rw [List.drop_take]
    congr 1
    omega
  have hold : ((l.drop (l.length - 6)).take 3).length = 3 := by
    rw [List.length_take, List.length_drop]
    omega
  simp only [GolfHelpers.getHandicapTrend, hold0]
  rw [if_neg (by omega), if_neg (by rw [hold]; omega),
    calculateAverage_three _ hrec, calculateAverage_three _ hold]

/-- Claim C4: for every index sequence with at least 6 values the trend
is computed from the last 3 values ("recent") and the 3 values at
positions `[-6, -3)` ("older"), each window's mean rounded to one
decimal with the helper's rounding rule; the result compares the delta
against the `±0.5` thresholds. -/
theorem claim4_trend_windows (l : List ℚ) (h : 6 ≤ l.length) :
    GolfHelpers.getHandicapTrend l =
      if ((round (((l.drop (l.length - 3)).sum / 3) * 10) : ℤ) : ℚ) / 10 -
          ((round ((((l.drop (l.length - 6)).take 3).sum / 3) * 10) : ℤ) : ℚ) / 10 < -0.5
      then "improving"
      else if ((round (((l.drop (l.length - 3)).sum / 3) * 10) : ℤ) : ℚ) / 10 -
          ((round ((((l.drop (l.length - 6)).take 3).sum / 3) * 10) : ℤ) : ℚ) / 10 > 0.5
      then "declining"
      else "stable" :=
  trend_eval l h

theorem claim4_witness :
    GolfHelpers.getHandicapTrend [20, 19.5, 19, 18, 17.5, 17] = "improving" := by
  rw [claim4_trend_windows [20, 19.5, 19, 18, 17.5, 17] (by decide)]
  norm_num [round_eq, Rat.floor_def]

/-- The trend of a sequence of length `≥ 6` equals the trend of its
last-six suffix. -/
theorem trend_drop_last_six (l : List ℚ) (h : 6 ≤ l.length) :
    GolfHelpers.getHandicapTrend l = GolfHelpers.getHandicapTrend (l.drop (l.length - 6)) := by
  have hlen : (l.drop (l.length - 6)).length = 6 := by
    rw [List.length_drop]
    omega
  have e1 : (l.drop (l.length - 6)).drop ((l.drop (l.length - 6)).length - 3) =
      l.drop (l.length - 3) := by
    rw [hlen, List.drop_drop]
    congr 1
    omega
  have e2 : (l.drop (l.length - 6)).drop ((l.drop (l.length - 6)).length - 6) =
      l.drop (l.length - 6) := by
    rw [hlen]
    norm_num
  rw [trend_eval l h, trend_eval _ (by rw [hlen]), e1, e2]

/-- Claim C9: `getHandicapTrend` depends only on the last 6 elements of
its input: for sequences of length at least 6, the trend of `l` equals
the trend of the last-six suffix, and prepending any values never
changes the result. -/
theorem claim9_depends_on_last_six (l : List ℚ) (h : 6 ≤ l.length) :
    GolfHelpers.getHandicapTrend l = GolfHelpers.getHandicapTrend (l.drop (l.length - 6)) ∧
    ∀ pre : List ℚ, GolfHelpers.getHandicapTrend (pre ++ l) = GolfHelpers.getHandicapTrend l := by
  refine ⟨trend_drop_last_six l h, fun pre => ?_⟩
  have hl : 6 ≤ (pre ++ l).length := by
    rw [List.length_append]
    omega
  have hdrop : (pre ++ l).drop ((pre ++ l).length - 6) = l.drop (l.length - 6) := by
    rw [List.length_append]
    have e : pre.length + l.length - 6 = pre.length + (l.length - 6) := by omega
    rw [e, List.drop_append]
  rw [trend_drop_last_six _ hl, hdrop, ← trend_drop_last_six l h]

theorem claim9_witness :
    GolfHelpers.getHandicapTrend ([1, 2, 3, 4, 5, 6] : List ℚ) =
      GolfHelpers.getHandicapTrend
        (([1, 2, 3, 4, 5, 6] : List ℚ).drop (([1, 2, 3, 4, 5, 6] : List ℚ).length - 6)) ∧
    GolfHelpers.getHandicapTrend ([9] ++ [1, 2, 3, 4, 5, 6]) =
      GolfHelpers.getHandicapTrend ([1, 2, 3, 4, 5, 6] : List ℚ) :=
  ⟨(claim9_depends_on_last_six [1, 2, 3, 4, 5, 6] (by decide)).1,
   (claim9_depends_on_last_six [1, 2, 3, 4, 5, 6] (by decide)).2 [9]⟩

/-! ### Monotonicity machinery for claim C10 -/

/-- Inserting a larger element into a sorted list that starts below it:
the original list is pointwise below the insertion result. -/
theorem forall2_cons_orderedInsert {a : ℚ} :
    ∀ (t : List ℚ) (x : ℚ), (x :: t).Sorted (· ≤ ·) → x ≤ a →
      List.Forall₂ (· ≤ ·) (x :: t) (List.orderedInsert (· ≤ ·) a t)
  | [], _, _, hxa => List.Forall₂.cons hxa List.Forall₂.nil
  | y :: t, x, hs, hxa => by
    by_cases hay : a ≤ y
    · simp only [List.orderedInsert, if_pos hay]
      exact List.Forall₂.cons hxa (List.forall₂_refl _)
    · simp only [List.orderedInsert, if_neg hay]
      exact List.Forall₂.cons (List.rel_of_sorted_cons hs y (by simp))
        (forall2_cons_orderedInsert t y hs.of_cons (le_of_not_le hay))

/-- Ordered insertion is pointwise monotone in the inserted element. -/
theorem forall2_orderedInsert {a b : ℚ} (hba : b ≤ a) :
    ∀ (s : List ℚ), s.Sorted (· ≤ ·) →
      List.Forall₂ (· ≤ ·) (List.orderedInsert (· ≤ ·) b s) (List.orderedInsert (· ≤ ·) a s)
  | [], _ => List.Forall₂.cons hba List.Forall₂.nil
  | y :: t, hs => by
    by_cases hby : b ≤ y
    · by_cases hay : a ≤ y
      · simp only [List.orderedInsert, if_pos hby, if_pos hay]
        exact List.Forall₂.cons hba (List.forall₂_refl _)
      · simp only [List.orderedInsert, if_pos hby, if_neg hay]
        exact List.Forall₂.cons hby (forall2_cons_orderedInsert t y hs (le_of_not_le hay))
    · have hay : ¬a ≤ y := fun hc => hby (hba.trans hc)
      simp only [List.orderedInsert, if_neg hby, if_neg hay]
      exact List.Forall₂.cons le_rfl (forall2_orderedInsert hba t hs.of_cons)

/-- Sorting a list with a distinguished middle element is ordered
insertion of that element into the sort of the rest. -/
theorem sort_middle (L₁ L₂ : List ℚ) (c : ℚ) :
    List.insertionSort (· ≤ ·) (L₁ ++ c :: L₂) =
      List.orderedInsert (· ≤ ·) c (List.insertionSort (· ≤ ·) (L₁ ++ L₂)) := by
  rw [sort_eq_of_perm List.perm_middle]
  rfl

/-- Claim C10: `calculateHandicap` is monotone in each differential:
with the round count and all other differentials fixed, replacing one
round's differential `a` by a smaller value `b` never increases the
returned index (equivalently, replacing it by a larger value never
decreases it). -/
theorem claim10_monotone_in_each_differential (l₁ l₂ : List Round) (a b : ℚ)
    (hba : b ≤ a) (x y : ℚ)
    (hx : GolfHelpers.calculateHandicap (l₁ ++ ⟨b⟩ :: l₂) = some x)
    (hy : GolfHelpers.calculateHandicap (l₁ ++ ⟨a⟩ :: l₂) = some y) :
    x ≤ y := by
  have hnn : (l₁ ++ (⟨a⟩ : Round) :: l₂).length = (l₁ ++ (⟨b⟩ : Round) :: l₂).length := by
    simp
  have h3 : 3 ≤ (l₁ ++ (⟨b⟩ : Round) :: l₂).length := by
    by_contra hc
    rw [calculateHandicap_none _ (by omega)] at hx
    exact Option.noConfusion hx
  rw [calculateHandicap_eq _ h3] at hx
  rw [calculateHandicap_eq _ (by omega), hnn] at hy
  have hmapb : (l₁ ++ (⟨b⟩ : Round) :: l₂).map Round.differential =
      (l₁.map Round.differential) ++ b :: (l₂.map Round.differential) := by
    simp
  have hmapa : (l₁ ++ (⟨a⟩ : Round) :: l₂).map Round.differential =
      (l₁.map Round.differential) ++ a :: (l₂.map Round.differential) := by
    simp
  rw [hmapb, sort_middle] at hx
  rw [hmapa, sort_middle] at hy
  have hF : List.Forall₂ (· ≤ ·)
      (List.orderedInsert (· ≤ ·) b
        (List.insertionSort (· ≤ ·) (l₁.map Round.differential ++ l₂.map Round.differential)))
      (List.orderedInsert (· ≤ ·) a
        (List.insertionSort (· ≤ ·) (l₁.map Round.differential ++ l₂.map Round.differential))) :=
    forall2_orderedInsert hba _ (List.sorted_insertionSort _ _)
  have hsum : ((List.orderedInsert (· ≤ ·) b
      (List.insertionSort (· ≤ ·) (l₁.map Round.differential ++ l₂.map Round.differential))).take
        (bestCountSpec (l₁ ++ (⟨b⟩ : Round) :: l₂).length)).sum ≤
      ((List.orderedInsert (· ≤ ·) a
      (List.insertionSort (· ≤ ·) (l₁.map Round.differential ++ l₂.map Round.differential))).take
        (bestCountSpec (l₁ ++ (⟨b⟩ : Round) :: l₂).length)).sum :=
    (List.forall₂_take _ hF).sum_le_sum
  have hk : (0 : ℚ) < (bestCountSpec (l₁ ++ (⟨b⟩ : Round) :: l₂).length : ℚ) := by
    have := bestCountSpec_pos (l₁ ++ (⟨b⟩ : Round) :: l₂).length
    exact_mod_cast Nat.lt_of_lt_of_le Nat.zero_lt_one this
  have hdiv := (div_le_div_iff_of_pos_right hk).2 hsum
  have hmul := mul_le_mul_of_nonneg_right hdiv (by norm_num : (0 : ℚ) ≤ 10)
  have hround := round_mono_rat hmul
  have hcast : ((round (((List.orderedInsert (· ≤ ·) b
      (List.insertionSort (· ≤ ·) (l₁.map Round.differential ++ l₂.map Round.differential))).take
        (bestCountSpec (l₁ ++ (⟨b⟩ : Round) :: l₂).length)).sum /
        (bestCountSpec (l₁ ++ (⟨b⟩ : Round) :: l₂).length : ℚ) * 10) : ℤ) : ℚ) ≤
      ((round (((List.orderedInsert (· ≤ ·) a
      (List.insertionSort (· ≤ ·) (l₁.map Round.differential ++ l₂.map Round.differential))).take
        (bestCountSpec (l₁ ++ (⟨b⟩ : Round) :: l₂).length)).sum /
        (bestCountSpec (l₁ ++ (⟨b⟩ : Round) :: l₂).length : ℚ) * 10) : ℤ) : ℚ) := by
    exact_mod_cast hround
  have hx' := Option.some.inj hx
  have hy' := Option.some.inj hy
  rw [← hx', ← hy']
  linarith

theorem claim10_witness :
    (3 : ℚ) ≤ 7 ∧ (3 : ℚ) ≤ 5 :=
  ⟨by norm_num,
   claim10_monotone_in_each_differential [] [⟨5⟩, ⟨7⟩] 7 3 (by norm_num) 3 5
     (by norm_num [GolfHelpers.calculateHandicap, HANDICAP_RULES, List.insertionSort,
        List.orderedInsert, round_eq, Rat.floor_def])
     (by norm_num [GolfHelpers.calculateHandicap, HANDICAP_RULES, List.insertionSort,
        List.orderedInsert, round_eq, Rat.floor_def])⟩

/-- The spec's worked example with 9 rounds: differentials
`[5, 6, 7, 8, 9, 10, 11, 12, 13]` give best-count 3, best three
`[5, 6, 7]`, mean `6`, index `6`. -/
theorem spec_example_nine_rounds :
    GolfHelpers.calculateHandicap
      [⟨5⟩, ⟨6⟩, ⟨7⟩, ⟨8⟩, ⟨9⟩, ⟨10⟩, ⟨11⟩, ⟨12⟩, ⟨13⟩] = some 6 := by
  norm_num [GolfHelpers.calculateHandicap, HANDICAP_RULES, List.insertionSort,
    List.orderedInsert, round_eq, Rat.floor_def]

/-- The spec's worked example of a constant index sequence: delta is 0,
so the trend is `"stable"`. -/
theorem spec_example_constant_trend :
    GolfHelpers.getHandicapTrend [10, 10, 10, 10, 10, 10] = "stable" := by
  norm_num [GolfHelpers.getHandicapTrend, GolfHelpers.calculateAverage, round_eq, Rat.floor_def]

end Divot
